import Mathlib

/-!
# Gastown session & worker lifecycle — shallow embedding

A shallow embedding of the session/worker lifecycle layer of the `gastown`
repository, together with proofs of the specified properties.

Embedded source files:
* `internal/session/manager.go` — polecat session manager
  (`sessionName`, `Start`, `Stop`, `IsRunning`, `List`, `Inject`, `StopAll`);
* `internal/cmd/crew.go` — `crewSessionName`, `runCrewRefresh`;
* the witness package (`Start`, `Stop`, `loadState`, `saveState`) and
  `util.ProcessExists`.

External effects (tmux registry, filesystem, mailbox, process probe, disk)
are modelled explicitly: the tmux registry is a list of live session keys
plus per-key failure oracles for each fallible primitive; every operation
returns its result, the updated world, and the ordered trace of side-effect
events it performed, so ordering contracts become statements about traces.
-/

deriving instance DecidableEq for Except

namespace Gastown

/-! ## Go string primitives

Go's `strings.HasPrefix` / `strings.TrimPrefix` operate on bytes; for valid
UTF-8 a byte-level prefix of whole strings coincides with a character-level
prefix, so we model them on the character lists underlying Lean strings
(`TrimPrefix(s, pre) = s[len(pre):]` when `pre` is a prefix, else `s`). -/

/-- `strings.HasPrefix s pre` -/
def hasPre (s pre : String) : Bool :=
  pre.data.isPrefixOf s.data

/-- `strings.TrimPrefix s pre` -/
def trimPre (s pre : String) : String :=
  if hasPre s pre then String.mk (s.data.drop pre.data.length) else s

/-! ## Identity & session addressing

`manager.go`:
```
func (m *Manager) sessionName(polecat string) string {
        return fmt.Sprintf("gt-%s-%s", m.rig.Name, polecat)
}
```
`crew.go`:
```
func crewSessionName(rigName, crewName string) string {
        return fmt.Sprintf("gt-%s-crew-%s", rigName, crewName)
}
```
-/

/-- Tmux session name for a polecat (`Manager.sessionName`). -/
def sessionName (rigName polecat : String) : String :=
  "gt-" ++ rigName ++ "-" ++ polecat

/-- Tmux session name for a crew worker (`crewSessionName`). -/
def crewSessionName (rigName crewName : String) : String :=
  "gt-" ++ rigName ++ "-crew-" ++ crewName

/-- The per-rig key namespace used by `Manager.List` to filter sessions. -/
def rigPre (rigName : String) : String :=
  "gt-" ++ rigName ++ "-"

/-- Worker roles that own a live tmux session. -/
inductive Role where
  | polecat
  | crew
deriving DecidableEq, Repr

/-- A worker identity as in the spec: role, rig, name. -/
structure WorkerIdentity where
  role : Role
  rig : String
  name : String
deriving DecidableEq, Repr

/-- The session key derived from an identity, dispatching to the two
derivation functions of the source. -/
def sessionKey : WorkerIdentity → String
  | ⟨.polecat, r, n⟩ => sessionName r n
  | ⟨.crew, r, n⟩ => crewSessionName r n

/-! ## Inject debounce policy

`manager.go` (`Inject`):
```
debounceMs := 200 + (len(message)/1024)*100
if debounceMs > 1500 {
        debounceMs = 1500
}
```
`len` in Go is the byte length; division is integer division. -/

/-- Debounce delay, in milliseconds, for a message of `n` bytes. -/
def debounceMs (n : Nat) : Nat :=
  let d := 200 + n / 1024 * 100
  if d > 1500 then 1500 else d

/-! ## Tmux world, events, errors

The tmux registry and the other external collaborators are modelled as an
explicit world: the list of live session keys, the mailbox contents, and
per-key failure oracles for each fallible tmux primitive (an oracle returning
`true` means the corresponding call fails for that key).  Each manager
operation returns `(result, world after, trace of side-effect events)`. -/

/-- A mail message (`mail.Message`). -/
structure Mail where
  fromAddr : String
  toAddr : String
  subject : String
  body : String
deriving DecidableEq, Repr

/-- Observable side effects performed against the tmux registry, the clock
and the mailbox, in the order the code performs them. -/
inductive Ev where
  | newSession (id workDir : String)
  | setEnv (id name value : String)
  | sendKeys (id text : String)
  | sendKeysRaw (id keys : String)
  | sendKeysDebounced (id text : String) (delayMs : Nat)
  | sleep (ms : Nat)
  | killSession (id : String)
  | mailAppend (msg : Mail)
deriving DecidableEq, Repr

/-- Typed failures of the session layer (the distinct `error` values and
wrappings produced by `manager.go` and `runCrewRefresh`). -/
inductive SErr where
  /-- `ErrPolecatNotFound: <name>` -/
  | polecatNotFound (name : String)
  /-- `ErrSessionRunning: <sessionID>` -/
  | sessionRunning (id : String)
  /-- `ErrSessionNotFound` -/
  | sessionNotFound
  /-- `checking session: <err>` -/
  | checkingSession
  /-- `creating session: <err>` -/
  | creatingSession
  /-- `sending command: <err>` / `starting claude: <err>` -/
  | sendingCommand
  /-- `killing session: <err>` / `killing old session: <err>` -/
  | killingSession
  /-- error from `tmux.ListSessions` -/
  | listingSessions
  /-- error from `SendKeysDebounced` (returned unwrapped by `Inject`) -/
  | debouncedSendFailed
  /-- `sending handoff mail: <err>` -/
  | sendingMail
deriving DecidableEq, Repr

/-- The external world: live tmux sessions, mailbox contents, and failure
oracles for each fallible external primitive. -/
structure World where
  /-- keys of the currently live tmux sessions -/
  sessions : List String
  /-- messages durably appended to the (single modelled) mailbox -/
  mails : List Mail
  /-- `tmux.HasSession` fails for this key -/
  hasSessionErr : String → Bool
  /-- `tmux.NewSession` fails for this key -/
  newSessionErr : String → Bool
  /-- `tmux.SendKeys` fails for this key -/
  sendKeysErr : String → Bool
  /-- `tmux.SendKeysRaw` fails for this key; its return value is discarded
  by `Stop` (best-effort courtesy), so no operation reads this oracle -/
  sendKeysRawErr : String → Bool
  /-- `tmux.SendKeysDebounced` fails for this key -/
  debouncedErr : String → Bool
  /-- `tmux.KillSession` fails for this key -/
  killErr : String → Bool
  /-- `tmux.ListSessions` fails -/
  listSessionsErr : Bool
  /-- `mailbox.Append` fails -/
  mailAppendErr : Bool

/-- `tmux.HasSession` -/
def hasSession (w : World) (id : String) : Except Unit Bool :=
  if w.hasSessionErr id then .error () else .ok (w.sessions.contains id)

/-! ## Polecat session manager (`internal/session/manager.go`)

`Manager` holds the rig (name, path) and — standing in for `os.Stat` on
`<rigPath>/polecats/<name>` — the set of polecat names whose clone
directory currently exists as a directory on the filesystem. -/

/-- `session.StartOptions`: optional overrides, `""` meaning unset (Go zero
value). -/
structure StartOptions where
  workDir : String := ""
  issue : String := ""
  command : String := ""
deriving DecidableEq, Repr

/-- `session.Info`: the derived view of one live session. -/
structure Info where
  polecat : String
  sessionID : String
  running : Bool
  rigName : String
deriving DecidableEq, Repr

/-- The polecat session manager plus the filesystem facts it consults. -/
structure Manager where
  rigName : String
  rigPath : String
  /-- names `p` for which `<rigPath>/polecats/<p>` exists and is a directory -/
  polecatDirs : List String

/-- `Manager.polecatDir` (`filepath.Join(m.rig.Path, "polecats", polecat)`). -/
def polecatDir (m : Manager) (polecat : String) : String :=
  m.rigPath ++ "/polecats/" ++ polecat

/-- `Manager.hasPolecat`: the clone directory exists on the filesystem. -/
def hasPolecat (m : Manager) (polecat : String) : Bool :=
  m.polecatDirs.contains polecat

/-- `Manager.Inject`: requires a live session, then sends the message via
the debounced-send primitive with the size-scaled delay. -/
def inject (m : Manager) (w : World) (polecat message : String) :
    Except SErr Unit × World × List Ev :=
  let sessionID := sessionName m.rigName polecat
  match hasSession w sessionID with
  | .error _ => (.error .checkingSession, w, [])
  | .ok false => (.error .sessionNotFound, w, [])
  | .ok true =>
    let ev := Ev.sendKeysDebounced sessionID message (debounceMs message.utf8ByteSize)
    if w.debouncedErr sessionID then (.error .debouncedSendFailed, w, [ev])
    else (.ok (), w, [ev])

/-- `Manager.Start`: filesystem existence check, session-absence check,
create session, set the two identity environment variables, send the launch
command, and — only when an issue is given — sleep 500 ms and inject the
follow-up prompt, whose failure is swallowed. -/
def start (m : Manager) (w : World) (polecat : String) (opts : StartOptions) :
    Except SErr Unit × World × List Ev :=
  if hasPolecat m polecat = false then
    (.error (.polecatNotFound polecat), w, [])
  else
    let sessionID := sessionName m.rigName polecat
    match hasSession w sessionID with
    | .error _ => (.error .checkingSession, w, [])
    | .ok true => (.error (.sessionRunning sessionID), w, [])
    | .ok false =>
      let workDir := if opts.workDir = "" then polecatDir m polecat else opts.workDir
      if w.newSessionErr sessionID then
        (.error .creatingSession, w, [.newSession sessionID workDir])
      else
        let w1 := { w with sessions := sessionID :: w.sessions }
        let command :=
          if opts.command = "" then "claude --dangerously-skip-permissions"
          else opts.command
        let evs := [Ev.newSession sessionID workDir,
                    Ev.setEnv sessionID "GT_RIG" m.rigName,
                    Ev.setEnv sessionID "GT_POLECAT" polecat,
                    Ev.sendKeys sessionID command]
        if w1.sendKeysErr sessionID then
          (.error .sendingCommand, w1, evs)
        else if opts.issue = "" then
          (.ok (), w1, evs)
        else
          let prompt := "Work on issue: " ++ opts.issue
          let r := inject m w1 polecat prompt
          (.ok (), r.2.1, evs ++ [Ev.sleep 500] ++ r.2.2)

/-- `Manager.Stop`: requires a live session; unless forced, sends the
`C-c` courtesy interrupt and sleeps 100 ms; always then calls
`KillSession`. -/
def stop (m : Manager) (w : World) (polecat : String) (force : Bool) :
    Except SErr Unit × World × List Ev :=
  let sessionID := sessionName m.rigName polecat
  match hasSession w sessionID with
  | .error _ => (.error .checkingSession, w, [])
  | .ok false => (.error .sessionNotFound, w, [])
  | .ok true =>
    let courtesy := if force then [] else [Ev.sendKeysRaw sessionID "C-c", Ev.sleep 100]
    if w.killErr sessionID then
      (.error .killingSession, w, courtesy ++ [Ev.killSession sessionID])
    else
      (.ok (), { w with sessions := w.sessions.erase sessionID },
        courtesy ++ [Ev.killSession sessionID])

/-- `Manager.IsRunning`: pass-through `HasSession` on the computed key. -/
def isRunning (m : Manager) (w : World) (polecat : String) : Except Unit Bool :=
  hasSession w (sessionName m.rigName polecat)

/-- `Manager.List`: all tmux sessions carrying the rig's `gt-<rig>-` key
namespace, each name derived by stripping that key namespace. -/
def listInfos (m : Manager) (w : World) : Except SErr (List Info) :=
  if w.listSessionsErr then .error .listingSessions
  else
    let pre := rigPre m.rigName
    .ok ((w.sessions.filter (fun id => hasPre id pre)).map (fun id =>
      { polecat := trimPre id pre, sessionID := id, running := true,
        rigName := m.rigName }))

/-- The loop body of `Manager.StopAll`: iterate over the listed infos,
stopping each in turn, remembering only the last error. -/
def stopAllLoop (m : Manager) (force : Bool) :
    Option SErr → World → List Ev → List Info → Option SErr × World × List Ev
  | lastErr, w, tr, [] => (lastErr, w, tr)
  | lastErr, w, tr, info :: rest =>
    let r := stop m w info.polecat force
    let lastErr' := match r.1 with
      | .ok _ => lastErr
      | .error e => some e
    stopAllLoop m force lastErr' r.2.1 (tr ++ r.2.2) rest

/-- `Manager.StopAll`: list this rig's sessions, stop each sequentially,
return the last error encountered (or success). -/
def stopAll (m : Manager) (w : World) (force : Bool) :
    Except SErr Unit × World × List Ev :=
  match listInfos m w with
  | .error e => (.error e, w, [])
  | .ok infos =>
    let r := stopAllLoop m force none w [] infos
    (match r.1 with
     | none => .ok ()
     | some e => .error e, r.2.1, r.2.2)

/-! ## Crew refresh (`internal/cmd/crew.go`, `runCrewRefresh`)

Modelled from the point where the crew worker has been resolved
successfully (`crewMgr.Get` returned a worker with clone path
`clonePath`); the `mkdir` of the mail directory is treated as succeeding
(its only failure mode is an early filesystem error before any modelled
effect).  The `HasSession` error is discarded by the source
(`hasSession, _ := t.HasSession(sessionID)`), leaving the Go zero value
`false`. -/

/-- The canned default handoff body used when the caller gives no message. -/
def defaultHandoff (name : String) : String :=
  "Context refresh for " ++ name ++ ". Check mail and beads for current work state."

/-- `runCrewRefresh` for an existing crew worker: append the handoff mail to
the worker's own mailbox, kill any existing session, recreate the session
and relaunch it with identity environment and the default command. -/
def runCrewRefresh (rigName crewName clonePath message : String) (w : World) :
    Except SErr Unit × World × List Ev :=
  let sessionID := crewSessionName rigName crewName
  let hasSess := if w.hasSessionErr sessionID then false
                 else w.sessions.contains sessionID
  let handoffMsg := if message = "" then defaultHandoff crewName else message
  let addr := rigName ++ "/" ++ crewName
  let msg : Mail := { fromAddr := addr, toAddr := addr,
                      subject := "🤝 HANDOFF: Context Refresh", body := handoffMsg }
  if w.mailAppendErr then
    (.error .sendingMail, w, [])
  else
    let w1 := { w with mails := w.mails ++ [msg] }
    let tr1 := [Ev.mailAppend msg]
    if hasSess ∧ w1.killErr sessionID = true then
      (.error .killingSession, w1, tr1 ++ [Ev.killSession sessionID])
    else
      let w2 := if hasSess then { w1 with sessions := w1.sessions.erase sessionID }
                else w1
      let tr2 := tr1 ++ (if hasSess then [Ev.killSession sessionID] else [])
      if w2.newSessionErr sessionID then
        (.error .creatingSession, w2, tr2 ++ [Ev.newSession sessionID clonePath])
      else
        let w3 := { w2 with sessions := sessionID :: w2.sessions }
        let tr3 := tr2 ++ [Ev.newSession sessionID clonePath,
                           Ev.setEnv sessionID "GT_RIG" rigName,
                           Ev.setEnv sessionID "GT_CREW" crewName,
                           Ev.sendKeys sessionID "claude"]
        if w3.sendKeysErr sessionID then (.error .sendingCommand, w3, tr3)
        else (.ok (), w3, tr3)

/-! ## Witness state machine (witness package)

One JSON document per rig; an absent file loads as the zero-value
`{Stopped, pid 0}` record.  `saveState` (atomic write) either persists the
whole record or fails without writing; the list of successfully persisted
records is returned so that "no write happened" is an observable fact.
`util.ProcessExists` is the external liveness probe, modelled as an oracle
`live : Int → Bool`; the interrupt signal of `Stop` is best-effort — the
source discards its result (`_ = proc.Signal(os.Interrupt)`), so the
outcome oracle `signalOk` is never read. -/

/-- Witness lifecycle states (`StateStopped` / `StateRunning`). -/
inductive WState where
  | stopped
  | running
deriving DecidableEq, Repr

/-- The persisted witness record (`Witness`). -/
structure Witness where
  rigName : String
  state : WState
  pid : Int
  startedAt : Option Nat
  monitoredPolecats : List String
deriving DecidableEq, Repr

/-- Witness errors (`ErrAlreadyRunning`, `ErrNotRunning`) plus a failed
`saveState` write. -/
inductive WErr where
  | alreadyRunning
  | notRunning
  | saveFailed
deriving DecidableEq, Repr

/-- `Manager.loadState`: an absent state file is the valid initial state
`{Stopped, pid 0}` for this rig (Go zero values for the other fields). -/
def loadState (rigName : String) (disk : Option Witness) : Witness :=
  match disk with
  | none => { rigName := rigName, state := .stopped, pid := 0,
              startedAt := none, monitoredPolecats := [] }
  | some w => w

/-- Witness `Start`: reject as `AlreadyRunning` only when the persisted
record is `Running` with a positive pid that the liveness probe reports as
alive; otherwise override the (possibly stale) record with the caller's own
pid, the current time, and the rig's known polecat names, and persist it.
Returns the result together with the list of records persisted by the call. -/
def witnessStart (rigName : String) (rigPolecats : List String)
    (disk : Option Witness) (live : Int → Bool) (selfPid : Int) (now : Nat)
    (saveOk : Bool) : Except WErr Unit × List Witness :=
  let w := loadState rigName disk
  if w.state = .running ∧ 0 < w.pid ∧ live w.pid = true then
    (.error .alreadyRunning, [])
  else
    let w' := { w with
      state := .running, startedAt := some now,
      pid := selfPid, monitoredPolecats := rigPolecats }
    if saveOk then (.ok (), [w']) else (.error .saveFailed, [])

/-- Witness `Stop`: reject as `NotRunning` unless the persisted record is
`Running`; send a best-effort interrupt to a positive foreign pid (outcome
`signalOk` discarded), then persist `{Stopped, pid 0}`.  Returns the result,
the records persisted, and the pids signalled. -/
def witnessStop (rigName : String) (disk : Option Witness) (selfPid : Int)
    (signalOk : Int → Bool) (saveOk : Bool) :
    Except WErr Unit × List Witness × List Int :=
  let w := loadState rigName disk
  if ¬ w.state = .running then
    (.error .notRunning, [], [])
  else
    let signalled := if 0 < w.pid ∧ ¬ w.pid = selfPid then [w.pid] else []
    let w' := { w with state := .stopped, pid := 0 }
    if saveOk then (.ok (), [w'], signalled)
    else (.error .saveFailed, [], signalled)

/-! ## Concrete worlds used for witnesses and counterexamples -/

/-- A world with the given live sessions and no failing external calls. -/
def cleanWorld (sessions : List String) : World :=
  { sessions := sessions, mails := [],
    hasSessionErr := fun _ => false, newSessionErr := fun _ => false,
    sendKeysErr := fun _ => false, sendKeysRawErr := fun _ => false,
    debouncedErr := fun _ => false, killErr := fun _ => false,
    listSessionsErr := false, mailAppendErr := false }

/-- Rig `x` with no polecat clone directories. -/
def mX : Manager := { rigName := "x", rigPath := "/gt/x", polecatDirs := [] }

/-- Rig `x` hosting exactly the session of crew worker `a`. -/
def wX : World := cleanWorld [crewSessionName "x" "a"]

/-! ## Specification-side helpers for `StopAll`

The claim speaks about the sequence of individual `Stop` attempts; `stopSeq`
is that sequence, written as a direct recursion, to be compared with the
accumulator loop `stopAllLoop` translated from the source. -/

/-- The results, final world and concatenated trace of stopping each listed
worker in order, threading the world through. -/
def stopSeq (m : Manager) (force : Bool) :
    World → List Info → List (Except SErr Unit) × World × List Ev
  | w, [] => ([], w, [])
  | w, info :: rest =>
    let r := stop m w info.polecat force
    let s := stopSeq m force r.2.1 rest
    (r.1 :: s.1, s.2.1, r.2.2 ++ s.2.2)

/-- The errors among a list of results, in order. -/
def errsOf (rs : List (Except SErr Unit)) : List SErr :=
  rs.filterMap fun r => match r with
    | .error e => some e
    | .ok _ => none

/-- `lastSome le es` is the last element of `es`, or `le` when `es` is
empty: the value of Go's `lastErr` variable after folding `es` over an
initial value `le`. -/
def lastSome : Option SErr → List SErr → Option SErr
  | le, [] => le
  | _, e :: es => lastSome (some e) es

/-- Rig `r` with polecats `a` and `b` (for the StopAll examples). -/
def m8 : Manager := { rigName := "r", rigPath := "/gt/r", polecatDirs := ["a", "b"] }

/-- Both polecat sessions live; killing `gt-r-a` fails. -/
def w8a : World :=
  { cleanWorld [sessionName "r" "a", sessionName "r" "b"] with
    killErr := fun id => id == sessionName "r" "a" }

/-- Both polecat sessions live; killing either fails. -/
def w8b : World :=
  { cleanWorld [sessionName "r" "a", sessionName "r" "b"] with
    killErr := fun _ => true }

/-- The infos `List` reports for the two live sessions of rig `r`. -/
def infos8 : List Info :=
  [{ polecat := "a", sessionID := sessionName "r" "a", running := true,
     rigName := "r" },
   { polecat := "b", sessionID := sessionName "r" "b", running := true,
     rigName := "r" }]

/-! ## Theorems for the claims -/

theorem hasPre_append (pre p : String) : hasPre (pre ++ p) pre = true := by
  simp [hasPre, String.data_append, List.isPrefixOf_iff_prefix]

theorem trimPre_append (pre p : String) : trimPre (pre ++ p) pre = p := by
  apply String.ext
  simp [trimPre, hasPre_append, String.data_append]

theorem sessionName_eq_pre_append (r p : String) :
    sessionName r p = rigPre r ++ p := rfl

theorem crewSessionName_eq_pre_append (r n : String) :
    crewSessionName r n = rigPre r ++ ("crew-" ++ n) := by
  apply String.ext
  simp [crewSessionName, rigPre, String.data_append]

theorem debounceMs_eq_min (n : Nat) :
    debounceMs n = min (200 + n / 1024 * 100) 1500 := by
  simp only [debounceMs]
  split <;> omega

theorem debounceMs_mono {a b : Nat} (h : a ≤ b) : debounceMs a ≤ debounceMs b := by
  have hd : a / 1024 ≤ b / 1024 := Nat.div_le_div_right h
  simp only [debounceMs]
  split <;> split <;> omega

theorem debounceMs_le (n : Nat) : debounceMs n ≤ 1500 := by
  simp only [debounceMs]
  split <;> omega

/-- Cancellation of a common left factor of Go-style string concatenation. -/
theorem string_append_cancel (a : String) {b c : String}
    (h : a ++ b = a ++ c) : b = c := by
  have h2 : a.data ++ b.data = a.data ++ c.data := by
    simpa [String.data_append] using congrArg String.data h
  exact String.ext (List.append_cancel_left h2)

/-- C1, counterexample.  The claim fails on the code at explicit inputs:
the distinct identities (polecat, rig `x`, name `crew-a`) and (crew, rig
`x`, name `a`) derive the same session key `gt-x-crew-a`, the distinct
polecat identities (rig `a`, name `b-c`) and (rig `a-b`, name `c`) derive
the same key `gt-a-b-c`, and `List` on rig `x` reports the crew worker
`a`'s live session as a polecat named `crew-a`. -/
theorem c1_key_collision :
    (⟨.polecat, "x", "crew-a"⟩ : WorkerIdentity) ≠ ⟨.crew, "x", "a"⟩ ∧
    sessionKey ⟨.polecat, "x", "crew-a"⟩ = sessionKey ⟨.crew, "x", "a"⟩ ∧
    (⟨.polecat, "a", "b-c"⟩ : WorkerIdentity) ≠ ⟨.polecat, "a-b", "c"⟩ ∧
    sessionKey ⟨.polecat, "a", "b-c"⟩ = sessionKey ⟨.polecat, "a-b", "c"⟩ ∧
    listInfos mX wX =
      .ok [{ polecat := "crew-a", sessionID := "gt-x-crew-a",
             running := true, rigName := "x" }] :=
  ⟨by decide, by decide, by decide, by decide, by decide⟩

/-- C1 (amended).  For a fixed rig, the polecat key derivation is injective
in the polecat name and the crew key derivation is injective in the crew
name, and `List` recovers each name by stripping the rig's exact key
namespace `gt-<rig>-`; but the two roles share one flat namespace: the crew
worker `p` of rig `r` carries the key of a polecat named `crew-p`, and
`List` reports its live session as a polecat named `crew-p`. -/
theorem c1_addressing_amended (r p q : String) (hpq : p ≠ q) :
    sessionName r p ≠ sessionName r q ∧
    crewSessionName r p ≠ crewSessionName r q ∧
    trimPre (sessionName r p) (rigPre r) = p ∧
    trimPre (crewSessionName r p) (rigPre r) = "crew-" ++ p ∧
    crewSessionName r p = sessionName r ("crew-" ++ p) ∧
    (∀ (m : Manager) (w : World), m.rigName = r → w.listSessionsErr = false →
      w.sessions = [crewSessionName r p] →
      listInfos m w =
        .ok [{ polecat := "crew-" ++ p, sessionID := crewSessionName r p,
               running := true, rigName := r }]) := by
  refine ⟨?_, ?_, ?_, ?_, ?_, ?_⟩
  · intro h
    rw [sessionName_eq_pre_append, sessionName_eq_pre_append] at h
    exact hpq (string_append_cancel _ h)
  · intro h
    rw [crewSessionName_eq_pre_append, crewSessionName_eq_pre_append] at h
    exact hpq (string_append_cancel _ (string_append_cancel _ h))
  · rw [sessionName_eq_pre_append]; exact trimPre_append _ _
  · rw [crewSessionName_eq_pre_append]; exact trimPre_append _ _
  · rw [crewSessionName_eq_pre_append, sessionName_eq_pre_append]
  · intro m w hm hle hse
    subst hm
    simp [listInfos, hle, hse, crewSessionName_eq_pre_append, hasPre_append,
      trimPre_append]

/-- C1, witness for the amended theorem at rig `x`, names `a ≠ b`. -/
theorem c1_addressing_amended_witness :
    sessionName "x" "a" ≠ sessionName "x" "b" ∧
    trimPre (sessionName "x" "a") (rigPre "x") = "a" ∧
    listInfos mX wX =
      .ok [{ polecat := "crew-" ++ "a", sessionID := crewSessionName "x" "a",
             running := true, rigName := "x" }] := by
  have h := c1_addressing_amended "x" "a" "b" (by decide)
  exact ⟨h.1, h.2.2.1, h.2.2.2.2.2 mX wX rfl rfl rfl⟩

/-- C2.  On a running session, `Inject` performs exactly one debounced send
whose delay is `min(200 + ⌊len(message)/1024⌋·100, 1500)` milliseconds; the
delay is non-decreasing in the message length, capped at 1500, and takes
the values 200, 300, 1200, 1500 at lengths 0, 1024, 10240, 100000. -/
theorem c2_inject_debounce (m : Manager) (w : World) (p message : String)
    (hhs : w.hasSessionErr (sessionName m.rigName p) = false)
    (hrun : w.sessions.contains (sessionName m.rigName p) = true) :
    (inject m w p message).2.2 =
      [Ev.sendKeysDebounced (sessionName m.rigName p) message
        (min (200 + message.utf8ByteSize / 1024 * 100) 1500)] ∧
    (∀ a b : Nat, a ≤ b → debounceMs a ≤ debounceMs b) ∧
    (∀ n : Nat, debounceMs n ≤ 1500) ∧
    debounceMs 0 = 200 ∧ debounceMs 1024 = 300 ∧
    debounceMs 10240 = 1200 ∧ debounceMs 100000 = 1500 := by
  refine ⟨?_, fun a b h => debounceMs_mono h, debounceMs_le, by decide,
    by decide, by decide, by decide⟩
  rw [← debounceMs_eq_min]
  have hmem : sessionName m.rigName p ∈ w.sessions := by simpa using hrun
  by_cases hd : w.debouncedErr (sessionName m.rigName p) = true <;>
    simp [inject, hasSession, hhs, hmem, hd]

/-- C2, witness at a concrete running session and message. -/
theorem c2_inject_debounce_witness :
    (inject mX (cleanWorld [sessionName "x" "joe"]) "joe" "hello").2.2 =
      [Ev.sendKeysDebounced (sessionName "x" "joe") "hello"
        (min (200 + ("hello" : String).utf8ByteSize / 1024 * 100) 1500)] ∧
    debounceMs 0 = 200 :=
  ⟨(c2_inject_debounce mX (cleanWorld [sessionName "x" "joe"]) "joe" "hello"
      rfl (by decide)).1,
   (c2_inject_debounce mX (cleanWorld [sessionName "x" "joe"]) "joe" "hello"
      rfl (by decide)).2.2.2.1⟩

/-- C3.  Witness `Start` fails with `AlreadyRunning` exactly when the
persisted record is `Running` with a pid the probe reports live (a live,
signalable process necessarily has a positive pid); otherwise, when the
write succeeds, it persists `Running` with the caller's own pid, the start
timestamp, and the rig's currently known polecat names — silently
overriding a stale `Running` record whose pid is no longer live. -/
theorem c3_witness_start (rigName : String) (rigPolecats : List String)
    (disk : Option Witness) (live : Int → Bool) (selfPid : Int) (now : Nat)
    (saveOk : Bool)
    (hlive : ∀ pid : Int, live pid = true → 0 < pid) :
    ((witnessStart rigName rigPolecats disk live selfPid now saveOk).1 =
        .error .alreadyRunning ↔
      ((loadState rigName disk).state = .running ∧
       live (loadState rigName disk).pid = true)) ∧
    (¬ ((loadState rigName disk).state = .running ∧
         live (loadState rigName disk).pid = true) → saveOk = true →
      witnessStart rigName rigPolecats disk live selfPid now saveOk =
        (.ok (), [{ loadState rigName disk with
          state := .running, startedAt := some now, pid := selfPid,
          monitoredPolecats := rigPolecats }])) := by
  by_cases hc : (loadState rigName disk).state = .running ∧
      0 < (loadState rigName disk).pid ∧
      live (loadState rigName disk).pid = true
  · constructor
    · rw [witnessStart, if_pos hc]
      exact iff_of_true rfl ⟨hc.1, hc.2.2⟩
    · intro hn
      exact absurd ⟨hc.1, hc.2.2⟩ hn
  · constructor
    · rw [witnessStart, if_neg hc]
      refine iff_of_false ?_ ?_
      · cases saveOk <;> simp
      · intro h
        exact hc ⟨h.1, hlive _ h.2, h.2⟩
    · intro _ hsave
      rw [witnessStart, if_neg hc, hsave, if_pos rfl]

/-- C3, witness: a persisted `Running` record with a live pid `7` is
rejected as `AlreadyRunning`; the same record with the process gone is
silently overridden with the caller's pid `42`. -/
theorem c3_witness_start_witness :
    ((witnessStart "x" ["joe"] (some ⟨"x", .running, 7, some 5, ["joe"]⟩)
        (fun pid => pid == 7) 42 9 true).1 = .error .alreadyRunning ↔
      ((loadState "x" (some ⟨"x", .running, 7, some 5, ["joe"]⟩)).state = .running ∧
       (fun pid : Int => pid == 7)
         (loadState "x" (some ⟨"x", .running, 7, some 5, ["joe"]⟩)).pid = true)) ∧
    witnessStart "x" ["joe"] (some ⟨"x", .running, 7, some 5, ["joe"]⟩)
        (fun _ => false) 42 9 true =
      (.ok (), [⟨"x", .running, 42, some 9, ["joe"]⟩]) :=
  ⟨(c3_witness_start "x" ["joe"] (some ⟨"x", .running, 7, some 5, ["joe"]⟩)
      (fun pid => pid == 7) 42 9 true
      (fun pid h => by simpa using (by exact_mod_cast of_decide_eq_true h : pid = 7) ▸ (by norm_num : (0:Int) < 7))).1,
   (c3_witness_start "x" ["joe"] (some ⟨"x", .running, 7, some 5, ["joe"]⟩)
      (fun _ => false) 42 9 true (fun _ h => by simp at h)).2
      (by simp [loadState]) rfl⟩

/-- C4.  Witness `Stop` is rejected with `NotRunning` whenever the
persisted record is not `Running`; otherwise (when the write succeeds) it
persists exactly `{Stopped, pid 0}`, for every outcome of the best-effort
interrupt signal to a foreign pid — the signal outcome oracle is never
consulted. -/
theorem c4_witness_stop (rigName : String) (disk : Option Witness)
    (selfPid : Int) (signalOk : Int → Bool) (saveOk : Bool) :
    (¬ (loadState rigName disk).state = .running →
      witnessStop rigName disk selfPid signalOk saveOk =
        (.error .notRunning, [], [])) ∧
    ((loadState rigName disk).state = .running → saveOk = true →
      (witnessStop rigName disk selfPid signalOk saveOk).1 = .ok () ∧
      (witnessStop rigName disk selfPid signalOk saveOk).2.1 =
        [{ loadState rigName disk with state := .stopped, pid := 0 }]) := by
  constructor
  · intro hn
    rw [witnessStop, if_pos hn]
  · intro hr hsave
    rw [witnessStop, if_neg (by simpa using hr), hsave, if_pos rfl]
    exact ⟨rfl, rfl⟩

/-- C4, witness: stopping a `Running` record with foreign pid `7` persists
`{Stopped, pid 0}` both when the interrupt signal succeeds and when it
fails; stopping a `Stopped` record is rejected with `NotRunning`. -/
theorem c4_witness_stop_witness :
    (witnessStop "x" (some ⟨"x", .running, 7, some 5, []⟩) 42
        (fun _ => false) true).2.1 = [⟨"x", .stopped, 0, some 5, []⟩] ∧
    (witnessStop "x" (some ⟨"x", .running, 7, some 5, []⟩) 42
        (fun _ => true) true).2.1 = [⟨"x", .stopped, 0, some 5, []⟩] ∧
    witnessStop "x" none 42 (fun _ => true) true =
      (.error .notRunning, [], []) :=
  ⟨((c4_witness_stop "x" (some ⟨"x", .running, 7, some 5, []⟩) 42
      (fun _ => false) true).2 rfl rfl).2,
   ((c4_witness_stop "x" (some ⟨"x", .running, 7, some 5, []⟩) 42
      (fun _ => true) true).2 rfl rfl).2,
   (c4_witness_stop "x" none 42 (fun _ => true) true).1 (by decide)⟩

/-- C10.  When witness `Start` returns `AlreadyRunning`, or witness `Stop`
returns `NotRunning`, the call persists nothing: the list of records
written to the state file is empty, so the on-disk state is unchanged. -/
theorem c10_witness_atomic
    (r1 : String) (pcs : List String) (d1 : Option Witness)
    (live : Int → Bool) (sp1 : Int) (now : Nat) (sv1 : Bool)
    (r2 : String) (d2 : Option Witness) (sp2 : Int) (sig : Int → Bool)
    (sv2 : Bool)
    (h1 : (witnessStart r1 pcs d1 live sp1 now sv1).1 = .error .alreadyRunning)
    (h2 : (witnessStop r2 d2 sp2 sig sv2).1 = .error .notRunning) :
    (witnessStart r1 pcs d1 live sp1 now sv1).2 = [] ∧
    (witnessStop r2 d2 sp2 sig sv2).2.1 = [] := by
  constructor
  · by_cases hc : (loadState r1 d1).state = .running ∧
        0 < (loadState r1 d1).pid ∧ live (loadState r1 d1).pid = true
    · rw [witnessStart, if_pos hc]
    · rw [witnessStart, if_neg hc] at h1 ⊢
      cases sv1 <;> simp_all
  · by_cases hn : (loadState r2 d2).state = .running
    · rw [witnessStop, if_neg (by simpa using hn)] at h2 ⊢
      cases sv2 <;> simp_all
    · rw [witnessStop, if_pos (by simpa using hn)]

theorem inject_world (m : Manager) (w : World) (p msg : String) :
    (inject m w p msg).2.1 = w := by
  simp only [inject]
  split
  · rfl
  · rfl
  · split <;> rfl

/-- A successful `Start` presupposes the clone directory, and its resulting
world is the input world with the new session registered (the oracles are
untouched). -/
theorem start_ok_sessions (m : Manager) (w : World) (p : String)
    (opts : StartOptions) (h : (start m w p opts).1 = .ok ()) :
    hasPolecat m p = true ∧
    (start m w p opts).2.1 =
      { w with sessions := sessionName m.rigName p :: w.sessions } := by
  cases hp : hasPolecat m p with
  | false => rw [start, if_pos (by simp [hp])] at h; exact absurd h (by simp)
  | true =>
    refine ⟨rfl, ?_⟩
    cases h1 : w.hasSessionErr (sessionName m.rigName p) with
    | true => simp [start, hasSession, hp, h1] at h
    | false =>
      by_cases h2 : sessionName m.rigName p ∈ w.sessions
      · simp [start, hasSession, hp, h1, h2] at h
      · cases h3 : w.newSessionErr (sessionName m.rigName p) with
        | true => simp [start, hasSession, hp, h1, h2, h3] at h
        | false =>
          cases h4 : w.sendKeysErr (sessionName m.rigName p) with
          | true => simp [start, hasSession, hp, h1, h2, h3, h4] at h
          | false =>
            by_cases h5 : opts.issue = "" <;>
              simp [start, hasSession, hp, h1, h2, h3, h4, h5, inject_world]

/-- C5.  `Start` fails with `ErrPolecatNotFound` when the polecat's clone
directory is absent from the filesystem; for an existing polecat it fails
with `ErrSessionRunning` when the registry already reports a live session
at the computed key; hence a second `Start` directly after a successful one
(no intervening `Stop`) fails with `ErrSessionRunning`. -/
theorem c5_start_errors (m : Manager) (w : World) (p : String)
    (opts opts2 : StartOptions)
    (hhs : w.hasSessionErr (sessionName m.rigName p) = false) :
    (hasPolecat m p = false →
      (start m w p opts).1 = .error (.polecatNotFound p)) ∧
    (hasPolecat m p = true →
      sessionName m.rigName p ∈ w.sessions →
      (start m w p opts).1 =
        .error (.sessionRunning (sessionName m.rigName p))) ∧
    ((start m w p opts).1 = .ok () →
      (start m (start m w p opts).2.1 p opts2).1 =
        .error (.sessionRunning (sessionName m.rigName p))) := by
  refine ⟨?_, ?_, ?_⟩
  · intro hp
    rw [start, if_pos (by simp [hp])]
  · intro hp hmem
    simp [start, hasSession, hp, hhs, hmem]
  · intro h
    obtain ⟨hp, hw⟩ := start_ok_sessions m w p opts h
    rw [hw]
    simp [start, hasSession, hp, hhs]

/-- C5, witness: polecat `joe` of rig `x`; a missing clone directory is
`ErrPolecatNotFound`, a live session is `ErrSessionRunning`, and the second
of two back-to-back `Start`s fails with `ErrSessionRunning`. -/
theorem c5_start_errors_witness :
    (start mX (cleanWorld []) "joe" {}).1 =
      .error (.polecatNotFound "joe") ∧
    (start m8 (cleanWorld [sessionName "r" "a"]) "a" {}).1 =
      .error (.sessionRunning (sessionName "r" "a")) ∧
    (start m8 (start m8 (cleanWorld []) "a" {}).2.1 "a" {}).1 =
      .error (.sessionRunning (sessionName "r" "a")) :=
  ⟨(c5_start_errors mX (cleanWorld []) "joe" {} {} rfl).1 (by decide),
   (c5_start_errors m8 (cleanWorld [sessionName "r" "a"]) "a" {} {} rfl).2.1
     (by decide) (by decide),
   (c5_start_errors m8 (cleanWorld []) "a" {} {} rfl).2.2 (by decide)⟩

/-- C6.  Within a successful polecat `Start` the side effects occur in
order: session creation, the two identity environment variables (rig, then
polecat name), the launch command, and — exactly when `opts.issue` is set —
a 500 ms settle delay followed by the follow-up prompt; the follow-up is
attempted for every outcome of the debounced send, and `Start` still
returns success (its failure is swallowed). -/
theorem c6_start_order (m : Manager) (w : World) (p : String)
    (opts : StartOptions)
    (hp : hasPolecat m p = true)
    (hhs : w.hasSessionErr (sessionName m.rigName p) = false)
    (habs : ¬ sessionName m.rigName p ∈ w.sessions)
    (hnew : w.newSessionErr (sessionName m.rigName p) = false)
    (hsend : w.sendKeysErr (sessionName m.rigName p) = false) :
    (start m w p opts).1 = .ok () ∧
    (start m w p opts).2.2 =
      [Ev.newSession (sessionName m.rigName p)
          (if opts.workDir = "" then polecatDir m p else opts.workDir),
       Ev.setEnv (sessionName m.rigName p) "GT_RIG" m.rigName,
       Ev.setEnv (sessionName m.rigName p) "GT_POLECAT" p,
       Ev.sendKeys (sessionName m.rigName p)
          (if opts.command = "" then "claude --dangerously-skip-permissions"
           else opts.command)] ++
      (if opts.issue = "" then []
       else [Ev.sleep 500,
         Ev.sendKeysDebounced (sessionName m.rigName p)
           ("Work on issue: " ++ opts.issue)
           (debounceMs ("Work on issue: " ++ opts.issue).utf8ByteSize)]) := by
  by_cases h5 : opts.issue = "" <;>
    by_cases hd : w.debouncedErr (sessionName m.rigName p) = true <;>
      simp [start, inject, hasSession, hp, hhs, habs, hnew, hsend, h5, hd]

/-- C6, witness: starting polecat `a` of rig `r` with an issue set; the
full ordered trace including the settle delay and follow-up prompt. -/
theorem c6_start_order_witness :
    (start m8 (cleanWorld []) "a" { issue := "gt-7" }).1 = .ok () ∧
    (start m8 (cleanWorld []) "a" { issue := "gt-7" }).2.2 =
      [Ev.newSession (sessionName "r" "a")
          (if ({ issue := "gt-7" } : StartOptions).workDir = ""
           then polecatDir m8 "a"
           else ({ issue := "gt-7" } : StartOptions).workDir),
       Ev.setEnv (sessionName "r" "a") "GT_RIG" m8.rigName,
       Ev.setEnv (sessionName "r" "a") "GT_POLECAT" "a",
       Ev.sendKeys (sessionName "r" "a")
          (if ({ issue := "gt-7" } : StartOptions).command = ""
           then "claude --dangerously-skip-permissions"
           else ({ issue := "gt-7" } : StartOptions).command)] ++
      (if ({ issue := "gt-7" } : StartOptions).issue = "" then []
       else [Ev.sleep 500,
         Ev.sendKeysDebounced (sessionName "r" "a")
           ("Work on issue: " ++ ({ issue := "gt-7" } : StartOptions).issue)
           (debounceMs
             ("Work on issue: " ++
               ({ issue := "gt-7" } : StartOptions).issue).utf8ByteSize)]) :=
  c6_start_order m8 (cleanWorld []) "a" { issue := "gt-7" }
    (by decide) rfl (by decide) rfl rfl

/-- C7.  `Stop` fails with `ErrSessionNotFound` when no live session exists
at the computed key; otherwise, unless forced, it sends the best-effort
`C-c` interrupt and waits 100 ms before the hard kill, and the hard kill of
the session is always the final action regardless of whether the courtesy
path ran (its outcome is never consulted) and regardless of the kill's own
outcome. -/
theorem c7_stop_courtesy (m : Manager) (w : World) (p : String) (force : Bool)
    (hhs : w.hasSessionErr (sessionName m.rigName p) = false) :
    (¬ sessionName m.rigName p ∈ w.sessions →
      stop m w p force = (.error .sessionNotFound, w, [])) ∧
    (sessionName m.rigName p ∈ w.sessions →
      (stop m w p force).2.2 =
        (if force then []
         else [Ev.sendKeysRaw (sessionName m.rigName p) "C-c", Ev.sleep 100]) ++
        [Ev.killSession (sessionName m.rigName p)]) := by
  constructor
  · intro habs
    simp [stop, hasSession, hhs, habs]
  · intro hmem
    by_cases hk : w.killErr (sessionName m.rigName p) = true <;>
      simp [stop, hasSession, hhs, hmem, hk]

/-- C7, witness: stopping polecat `a` of rig `r` without force runs the
courtesy interrupt, the 100 ms wait, then the kill; stopping a polecat with
no session fails with `ErrSessionNotFound`. -/
theorem c7_stop_courtesy_witness :
    stop m8 (cleanWorld []) "a" false = (.error .sessionNotFound,
      cleanWorld [], []) ∧
    (stop m8 (cleanWorld [sessionName "r" "a"]) "a" false).2.2 =
      (if false then []
       else [Ev.sendKeysRaw (sessionName "r" "a") "C-c", Ev.sleep 100]) ++
      [Ev.killSession (sessionName "r" "a")] :=
  ⟨(c7_stop_courtesy m8 (cleanWorld []) "a" false rfl).1 (by decide),
   (c7_stop_courtesy m8 (cleanWorld [sessionName "r" "a"]) "a" false rfl).2
     (by decide)⟩

theorem lastSome_getLast : ∀ (es : List SErr) (le : Option SErr),
    lastSome le es = match es.getLast? with
      | none => le
      | some e => some e := by
  intro es
  induction es with
  | nil => intro le; rfl
  | cons e es ih =>
    intro le
    cases es with
    | nil => rfl
    | cons f fs =>
      rw [List.getLast?_cons_cons,
        show lastSome le (e :: f :: fs) = lastSome (some e) (f :: fs) from rfl,
        ih (some e)]
      cases h : (f :: fs).getLast? with
      | none => simp at h
      | some g => rfl

/-- The accumulator loop of `StopAll` computes the sequential run `stopSeq`
together with the last error seen. -/
theorem stopAllLoop_eq (m : Manager) (force : Bool) :
    ∀ (infos : List Info) (le : Option SErr) (w : World) (tr : List Ev),
      stopAllLoop m force le w tr infos =
        (lastSome le (errsOf (stopSeq m force w infos).1),
         (stopSeq m force w infos).2.1,
         tr ++ (stopSeq m force w infos).2.2) := by
  intro infos
  induction infos with
  | nil => intro le w tr; simp [stopAllLoop, stopSeq, errsOf, lastSome]
  | cons i rest ih =>
    intro le w tr
    simp only [stopAllLoop, stopSeq]
    rw [ih]
    cases hr : (stop m w i.polecat force).1 with
    | ok u => simp [errsOf, hr, List.filterMap_cons]
    | error e => simp [errsOf, hr, List.filterMap_cons, lastSome]

theorem stopSeq_length (m : Manager) (force : Bool) :
    ∀ (w : World) (infos : List Info),
      (stopSeq m force w infos).1.length = infos.length := by
  intro w infos
  induction infos generalizing w with
  | nil => rfl
  | cons i rest ih => simp [stopSeq, ih]

/-- C8.  When listing succeeds, `StopAll` is exactly the strictly
sequential run of `Stop` over every listed worker (its final world and
trace are those of the run, and every listed worker is attempted, so
individual failures do not stop the iteration), and its return value is
precisely the last error of the run — success when every stop succeeds or
nothing was listed.  Consequently the return value alone cannot identify
which workers failed: the two concrete worlds `w8a` (killing `gt-r-a`
fails) and `w8b` (killing both sessions fails) have different per-worker
outcome sequences but identical `StopAll` return values. -/
theorem c8_stopAll_lastErr (m : Manager) (w : World) (force : Bool)
    (infos : List Info) (hlist : listInfos m w = .ok infos) :
    stopAll m w force =
      ((match (errsOf (stopSeq m force w infos).1).getLast? with
        | none => Except.ok ()
        | some e => Except.error e),
       (stopSeq m force w infos).2.1, (stopSeq m force w infos).2.2) ∧
    (stopSeq m force w infos).1.length = infos.length ∧
    ((stopAll m8 w8a force).1 = (stopAll m8 w8b force).1 ∧
     (stopSeq m8 force w8a infos8).1 ≠ (stopSeq m8 force w8b infos8).1) := by
  refine ⟨?_, stopSeq_length m force w infos, ?_⟩
  · simp only [stopAll, hlist]
    rw [stopAllLoop_eq m force infos none w [], lastSome_getLast]
    cases h : (errsOf (stopSeq m force w infos).1).getLast? <;> simp [h]
  · cases force <;> exact ⟨by decide, by decide⟩

/-- C8, witness: rig `r` with both sessions live and the kill of `gt-r-a`
failing; `StopAll` equals the sequential run and attempts both workers. -/
theorem c8_stopAll_lastErr_witness :
    stopAll m8 w8a false =
      ((match (errsOf (stopSeq m8 false w8a infos8).1).getLast? with
        | none => Except.ok ()
        | some e => Except.error e),
       (stopSeq m8 false w8a infos8).2.1,
       (stopSeq m8 false w8a infos8).2.2) ∧
    (stopSeq m8 false w8a infos8).1.length = infos8.length :=
  ⟨(c8_stopAll_lastErr m8 w8a false infos8 (by decide)).1,
   (c8_stopAll_lastErr m8 w8a false infos8 (by decide)).2.1⟩

/-- C9.  For an existing crew worker, `Refresh` first appends the handoff
message — the caller's message, or the canned default when none is given —
to the worker's own mailbox, then kills the existing session whenever one
is live, then recreates the session and relaunches it with the two identity
environment variables and the default `claude` launch command, in exactly
that order. -/
theorem c9_crew_refresh_order (rigName crewName clonePath message : String)
    (w : World)
    (hmail : w.mailAppendErr = false)
    (hkill : w.killErr (crewSessionName rigName crewName) = false)
    (hnew : w.newSessionErr (crewSessionName rigName crewName) = false)
    (hsend : w.sendKeysErr (crewSessionName rigName crewName) = false) :
    (runCrewRefresh rigName crewName clonePath message w).1 = .ok () ∧
    (runCrewRefresh rigName crewName clonePath message w).2.1.mails =
      w.mails ++
        [{ fromAddr := rigName ++ "/" ++ crewName,
           toAddr := rigName ++ "/" ++ crewName,
           subject := "🤝 HANDOFF: Context Refresh",
           body := if message = "" then defaultHandoff crewName else message }] ∧
    (runCrewRefresh rigName crewName clonePath message w).2.2 =
      Ev.mailAppend
        { fromAddr := rigName ++ "/" ++ crewName,
          toAddr := rigName ++ "/" ++ crewName,
          subject := "🤝 HANDOFF: Context Refresh",
          body := if message = "" then defaultHandoff crewName else message } ::
      ((if (if w.hasSessionErr (crewSessionName rigName crewName) then false
            else w.sessions.contains (crewSessionName rigName crewName)) then
          [Ev.killSession (crewSessionName rigName crewName)]
        else []) ++
       [Ev.newSession (crewSessionName rigName crewName) clonePath,
        Ev.setEnv (crewSessionName rigName crewName) "GT_RIG" rigName,
        Ev.setEnv (crewSessionName rigName crewName) "GT_CREW" crewName,
        Ev.sendKeys (crewSessionName rigName crewName) "claude"]) := by
  by_cases hhs : w.hasSessionErr (crewSessionName rigName crewName) = true <;>
    by_cases hmem : crewSessionName rigName crewName ∈ w.sessions <;>
      simp [runCrewRefresh, hmail, hkill, hnew, hsend, hhs, hmem]

/-- C9, witness: refreshing crew worker `dave` of rig `x` with a live
session and no custom message. -/
theorem c9_crew_refresh_order_witness :
    (runCrewRefresh "x" "dave" "/gt/x/crew/dave" ""
        (cleanWorld [crewSessionName "x" "dave"])).1 = .ok () ∧
    (runCrewRefresh "x" "dave" "/gt/x/crew/dave" ""
        (cleanWorld [crewSessionName "x" "dave"])).2.2 =
      Ev.mailAppend
        { fromAddr := "x" ++ "/" ++ "dave", toAddr := "x" ++ "/" ++ "dave",
          subject := "🤝 HANDOFF: Context Refresh",
          body := if ("" : String) = "" then defaultHandoff "dave" else "" } ::
      ((if (if (cleanWorld [crewSessionName "x" "dave"]).hasSessionErr
              (crewSessionName "x" "dave") then false
            else (cleanWorld [crewSessionName "x" "dave"]).sessions.contains
              (crewSessionName "x" "dave")) then
          [Ev.killSession (crewSessionName "x" "dave")]
        else []) ++
       [Ev.newSession (crewSessionName "x" "dave") "/gt/x/crew/dave",
        Ev.setEnv (crewSessionName "x" "dave") "GT_RIG" "x",
        Ev.setEnv (crewSessionName "x" "dave") "GT_CREW" "dave",
        Ev.sendKeys (crewSessionName "x" "dave") "claude"]) :=
  ⟨(c9_crew_refresh_order "x" "dave" "/gt/x/crew/dave" ""
      (cleanWorld [crewSessionName "x" "dave"]) rfl rfl rfl rfl).1,
   (c9_crew_refresh_order "x" "dave" "/gt/x/crew/dave" ""
      (cleanWorld [crewSessionName "x" "dave"]) rfl rfl rfl rfl).2.2⟩

/-- C10, witness: an `AlreadyRunning` rejection (live pid `7`) and a
`NotRunning` rejection (absent state file) both leave the disk unwritten. -/
theorem c10_witness_atomic_witness :
    (witnessStart "x" [] (some ⟨"x", .running, 7, none, []⟩)
        (fun pid => pid == 7) 42 9 true).2 = [] ∧
    (witnessStop "y" none 42 (fun _ => true) true).2.1 = [] :=
  c10_witness_atomic "x" [] (some ⟨"x", .running, 7, none, []⟩)
    (fun pid => pid == 7) 42 9 true "y" none 42 (fun _ => true) true
    (by decide) (by decide)

end Gastown
